import Mathlib

/-!
Shallow embedding of the caper logging subsystem and graceful-shutdown
coordinator (apps/server/src/services/log.ts and shared/shutdown.ts),
with theorems checking the specification's claims against the code.
-/

namespace Caper

/-- Log severity levels, from `LogLevelSchema` in packages/shared/schemas/logs.ts. -/
inductive LogLevel where
  | debug
  | info
  | warn
  | error
  | fatal
deriving DecidableEq, BEq, Repr

/-- Log categories, from `LogTypeSchema` in packages/shared/schemas/logs.ts. -/
inductive LogType where
  | http
  | app
  | db
  | auth
  | security
  | performance
  | system
deriving DecidableEq, BEq, Repr

/-- Storage policies, from `LogStorageSchema` in packages/shared/schemas/logs.ts. -/
inductive LogStorage where
  | console_only
  | database_only
  | file_only
  | console_db
  | console_file
  | all
deriving DecidableEq, BEq, Repr

/-- The string key a level contributes to the `STORAGE_RULES` object literal. -/
def levelKey : LogLevel → String
  | .debug => "debug"
  | .info => "info"
  | .warn => "warn"
  | .error => "error"
  | .fatal => "fatal"

/-- The string key a type contributes to the `STORAGE_RULES` object literal. -/
def typeKey : LogType → String
  | .http => "http"
  | .app => "app"
  | .db => "db"
  | .auth => "auth"
  | .security => "security"
  | .performance => "performance"
  | .system => "system"

/-- The `STORAGE_RULES` record from log.ts, as the association list its object
literal denotes: five level-keyed entries followed by seven type-keyed entries. -/
def STORAGE_RULES : List (String × LogStorage) :=
  [("debug", .console_only),
   ("info", .console_only),
   ("warn", .console_db),
   ("error", .all),
   ("fatal", .all),
   ("http", .console_only),
   ("app", .console_db),
   ("db", .console_db),
   ("auth", .all),
   ("security", .all),
   ("performance", .console_db),
   ("system", .all)]

/-- Property access `STORAGE_RULES[k]`: `some` when the key is present (every
stored policy is a nonempty string, hence truthy in the source's `if` checks). -/
def lookupRule (k : String) : Option LogStorage :=
  (STORAGE_RULES.find? (fun p => p.fst == k)).map Prod.snd

/-- Lookup in a metadata bag (a JS object as an association list in insertion
order) where the latest binding wins, matching JS spread semantics. -/
def metaLookup : List (String × String) → String → Option String
  | [], _ => none
  | (k, v) :: rest, key =>
    match metaLookup rest key with
    | some v2 => some v2
    | none => if k == key then some v else none

/-- A completed log entry, from `BaseLogSchema` (timestamps as epoch milliseconds). -/
structure BaseLog where
  id : String
  level : LogLevel
  type : LogType
  message : String
  timestamp : Nat
  service : String
  environment : String
  metadata : Option (List (String × String)) := none
  stack : Option String := none
deriving DecidableEq, BEq, Repr

/-- Service configuration, from `LogServiceConfig` in log.ts. -/
structure LogServiceConfig where
  defaultStorage : LogStorage
  async : Bool
  dbRetentionDays : Nat
  fileRetentionDays : Nat
  batchSize : Nat
  batchInterval : Nat
deriving DecidableEq, Repr

/-- The constructor's defaults for `LogServiceConfig` (log.ts lines 61-70). -/
def defaultConfig : LogServiceConfig :=
  { defaultStorage := .console_db
    async := true
    dbRetentionDays := 30
    fileRetentionDays := 7
    batchSize := 100
    batchInterval := 5000 }

/-- The `determineStorage` method: consult `STORAGE_RULES` by level, then by
type, then fall back to the configured default storage. -/
def determineStorage (defaultStorage : LogStorage) (log : BaseLog) : LogStorage :=
  match lookupRule (levelKey log.level) with
  | some s => s
  | none =>
    match lookupRule (typeKey log.type) with
    | some s => s
    | none => defaultStorage

/-- The `shouldWriteToConsole` membership check from log.ts. -/
def shouldWriteToConsole (storage : LogStorage) : Bool :=
  [LogStorage.console_only, .console_db, .console_file, .all].contains storage

/-- The `shouldWriteToDatabase` membership check from log.ts. -/
def shouldWriteToDatabase (storage : LogStorage) : Bool :=
  [LogStorage.database_only, .console_db, .all].contains storage

/-- The `shouldWriteToFile` membership check from log.ts. -/
def shouldWriteToFile (storage : LogStorage) : Bool :=
  [LogStorage.file_only, .console_file, .all].contains storage

/-- The static level rows of `STORAGE_RULES`, written directly from the table
(the refinement target for the claim that only the level row ever matters). -/
def levelPolicy : LogLevel → LogStorage
  | .debug => .console_only
  | .info => .console_only
  | .warn => .console_db
  | .error => .all
  | .fatal => .all

/-- The three sinks a log entry can be written to. -/
inductive Sink where
  | console
  | database
  | file
deriving DecidableEq, BEq, Repr

/-- The settled result of one attempted sink write (`Promise.allSettled` never
rejects, so an attempt always yields an outcome rather than an exception). -/
structure SinkOutcome where
  sink : Sink
  ok : Bool
deriving DecidableEq, BEq, Repr

/-- The `writeLog` method: attempt each sink the policy selects; every attempt
settles with an outcome (`fails` says which sink writes fail for which entry),
and no failure escapes to the caller. -/
def writeLog (fails : Sink → BaseLog → Bool) (log : BaseLog) (storage : LogStorage) :
    List SinkOutcome :=
  ((if shouldWriteToConsole storage then [Sink.console] else []) ++
   (if shouldWriteToDatabase storage then [Sink.database] else []) ++
   (if shouldWriteToFile storage then [Sink.file] else [])).map
    (fun s => { sink := s, ok := !fails s log })

/-- One entry submitted to `writeLog`, with the policy used and the settled
per-sink outcomes. -/
structure WriteRecord where
  entry : BaseLog
  storage : LogStorage
  outcomes : List SinkOutcome
deriving DecidableEq, BEq, Repr

/-- Observable state of a `LogService` instance: its config, the pending
queue, whether the batch timer is armed, the history of entries submitted to
`writeLog`, and how many size-triggered automatic flushes `log` has issued. -/
structure LogServiceState where
  config : LogServiceConfig
  logQueue : List BaseLog
  batchTimerActive : Bool
  written : List WriteRecord
  autoFlushCount : Nat
deriving Repr

/-- State right after the constructor: empty queue, timer armed iff async. -/
def initState (cfg : LogServiceConfig) : LogServiceState :=
  { config := cfg
    logQueue := []
    batchTimerActive := cfg.async
    written := []
    autoFlushCount := 0 }

/-- The `flushQueue` method: if the queue is empty, return; otherwise copy the
queue, replace it with an empty one (this happens synchronously, before any
sink write is awaited), then submit every copied entry to `writeLog` with its
policy and wait for all writes to settle. -/
def flushQueue (fails : Sink → BaseLog → Bool) (s : LogServiceState) : LogServiceState :=
  if s.logQueue.isEmpty then s
  else
    { s with
      logQueue := []
      written := s.written ++ s.logQueue.map (fun l =>
        { entry := l
          storage := determineStorage s.config.defaultStorage l
          outcomes := writeLog fails l (determineStorage s.config.defaultStorage l) }) }

/-- The `stop` method: clear the batch timer, then flush remaining entries. -/
def stop (fails : Sink → BaseLog → Bool) (s : LogServiceState) : LogServiceState :=
  flushQueue fails { s with batchTimerActive := false }

/-- An atomic step on the queue: an enqueue of a constructed entry, or a
`flushQueue` call (size-triggered or timer-triggered); the synchronous prefix
of `flushQueue` up to its first await is a single step, reflecting the
run-to-completion execution between awaits. -/
inductive QueueOp where
  | enq (entry : BaseLog)
  | flushNow
deriving Repr

/-- Apply one queue step. -/
def applyOp (fails : Sink → BaseLog → Bool) (s : LogServiceState) : QueueOp → LogServiceState
  | .enq e => { s with logQueue := s.logQueue ++ [e] }
  | .flushNow => flushQueue fails s

/-- Run a sequence of queue steps. -/
def runOps (fails : Sink → BaseLog → Bool) : LogServiceState → List QueueOp → LogServiceState
  | s, [] => s
  | s, op :: rest => runOps fails (applyOp fails s op) rest

/-- The entries a step sequence enqueues, in order. -/
def enqueuedOf : List QueueOp → List BaseLog
  | [] => []
  | .enq e :: rest => e :: enqueuedOf rest
  | .flushNow :: rest => enqueuedOf rest

/-- The partial entry accepted by `log`: message, level and type are required,
the remaining `BaseLog` fields are optional. -/
structure LogData where
  message : String
  level : LogLevel
  type : LogType
  id : Option String := none
  timestamp : Option Nat := none
  service : Option String := none
  environment : Option String := none
  metadata : Option (List (String × String)) := none
  stack : Option String := none
deriving DecidableEq, Repr

/-- The expression `Bun.env.NODE_ENV || "development"`: the empty string is
falsy, so it also falls back to "development". -/
def envOrDevelopment : Option String → String
  | none => "development"
  | some s => if s == "" then "development" else s

/-- The entry construction inside `log`: generated defaults first, then the
spread of `logData`, so a field supplied by the caller overrides the default. -/
def mkLog (freshId : String) (now : Nat) (nodeEnv : Option String) (d : LogData) : BaseLog :=
  { id := d.id.getD freshId
    level := d.level
    type := d.type
    message := d.message
    timestamp := d.timestamp.getD now
    service := d.service.getD "jigu-server"
    environment := d.environment.getD (envOrDevelopment nodeEnv)
    metadata := d.metadata
    stack := d.stack }

/-- The `log` method: build the entry, compute its policy, then in async mode
push it onto the queue and flush when the queue has reached `batchSize`
(counted in `autoFlushCount`), and in sync mode submit it to `writeLog`. -/
def logCall (fails : Sink → BaseLog → Bool) (freshId : String) (now : Nat)
    (nodeEnv : Option String) (s : LogServiceState) (d : LogData) : LogServiceState :=
  let log := mkLog freshId now nodeEnv d
  let storage := determineStorage s.config.defaultStorage log
  if s.config.async then
    let s1 := { s with logQueue := s.logQueue ++ [log] }
    if s1.config.batchSize ≤ s1.logQueue.length then
      flushQueue fails { s1 with autoFlushCount := s1.autoFlushCount + 1 }
    else s1
  else
    { s with written := s.written ++
        [{ entry := log, storage := storage, outcomes := writeLog fails log storage }] }

/-- Run a sequence of `log` calls. -/
def runLogCalls (fails : Sink → BaseLog → Bool) (freshId : String) (now : Nat)
    (nodeEnv : Option String) (s : LogServiceState) (ds : List LogData) : LogServiceState :=
  ds.foldl (logCall fails freshId now nodeEnv) s

/-- A JS `Error` value: name, message, and an optional stack. -/
structure JsError where
  name : String
  message : String
  stack : Option String := none
deriving DecidableEq, Repr

/-- The metadata object built by `error`/`fatal`:
`{ ...metadata, ...(error && { errorName, errorMessage }) }`. -/
def spreadErrorMeta (metadata : Option (List (String × String))) (e : Option JsError) :
    List (String × String) :=
  metadata.getD [] ++
    (match e with
     | some err => [("errorName", err.name), ("errorMessage", err.message)]
     | none => [])

/-- The partial entry the `error` method builds before calling `log`. -/
def errorLogData (message : String) (e : Option JsError)
    (metadata : Option (List (String × String))) (ty : LogType) : LogData :=
  { message := message
    level := .error
    type := ty
    metadata := some (spreadErrorMeta metadata e)
    stack := e.bind JsError.stack }

/-- The partial entry the `fatal` method builds before calling `log`. -/
def fatalLogData (message : String) (e : Option JsError)
    (metadata : Option (List (String × String))) (ty : LogType) : LogData :=
  { message := message
    level := .fatal
    type := ty
    metadata := some (spreadErrorMeta metadata e)
    stack := e.bind JsError.stack }

/-- The statistics record `getStats` returns (hour buckets and average
response time omitted; the claims do not touch them). -/
structure LogStats where
  total : Nat
  byLevel : LogLevel → Nat
  byType : LogType → Nat
  errorRate : ℚ

/-- The error-class count of the aggregation: entries at level error or fatal. -/
def statsErrorCount (logs : List BaseLog) : Nat :=
  (logs.filter (fun l => l.level == LogLevel.error || l.level == LogLevel.fatal)).length

/-- The `getStats` aggregation over the entries matching the time filter:
total, per-level and per-type counts, and the error rate
`total > 0 ? (errorCount / total) * 100 : 0`. -/
def getStats (logs : List BaseLog) : LogStats :=
  let total := logs.length
  let errorCount := statsErrorCount logs
  { total := total
    byLevel := fun lv => (logs.filter (fun l => l.level == lv)).length
    byType := fun ty => (logs.filter (fun l => l.type == ty)).length
    errorRate := if 0 < total then (errorCount : ℚ) / (total : ℚ) * 100 else 0 }

/-- The display name used in the shutdown service's logs for a registration. -/
def displayName (name : Option String) : String := name.getD "未命名清理函数"

/-- Observable events of the cleanup phase. -/
inductive CleanupEvent where
  | started (name : String)
  | succeeded (name : String)
  | cleanupFailed (name : String) (err : String)
  | indexFailed (displayIndex : Nat) (err : String)
deriving DecidableEq, Repr

/-- Run the `namedCleanup` wrapper that `registerCleanup` builds around a
callback: log the start, run the callback, log success, or log the failure and
rethrow it. A callback is embedded by its outcome, `Except String Unit`. -/
def runNamedCleanup (c : Option String × Except String Unit) :
    List CleanupEvent × Except String Unit :=
  match c.snd with
  | .ok _ => ([.started (displayName c.fst), .succeeded (displayName c.fst)], .ok ())
  | .error e =>
    ([.started (displayName c.fst), .cleanupFailed (displayName c.fst) e], .error e)

/-- The per-callback body inside `executeCleanup`: run the wrapped callback,
catch its failure, log it with the 1-based index, and do not rethrow. -/
def cleanupStep (i : Nat) (c : Option String × Except String Unit) : List CleanupEvent :=
  match runNamedCleanup c with
  | (evs, .ok _) => evs
  | (evs, .error e) => evs ++ [.indexFailed (i + 1) e]

/-- Run `cleanupStep` over the callbacks starting at a given 0-based index. -/
def cleanupFrom (i : Nat) : List (Option String × Except String Unit) → List CleanupEvent
  | [] => []
  | c :: rest => cleanupStep i c ++ cleanupFrom (i + 1) rest

/-- The `executeCleanup` method: run every registered callback, each failure
caught and logged; all are awaited to settle and the method itself never
fails (it returns the event trace, not an exception). -/
def executeCleanup (fns : List (Option String × Except String Unit)) : List CleanupEvent :=
  cleanupFrom 0 fns

/-- The `registerCleanup` method: append the (name, callback) registration. -/
def registerCleanup (fns : List (Option String × Except String Unit))
    (cleanup : Except String Unit) (name : Option String) :
    List (Option String × Except String Unit) :=
  fns ++ [(name, cleanup)]

/-- Observable state of the `GracefulShutdownService` singleton. -/
structure ShutdownService where
  cleanupFunctions : List (Option String × Except String Unit)
  isShuttingDown : Bool
  shutdownTimeout : Nat := 30000
deriving Repr

/-- Result of one `shutdown()` call: the state after its synchronous
check-and-set prefix, whether this call started the cleanup sequence, the
cleanup events it produced, and whether it logged the re-entrancy warning. -/
structure ShutdownCallResult where
  state : ShutdownService
  ranCleanup : Bool
  events : List CleanupEvent
  warned : Bool
deriving Repr

/-- The `shutdown` method: if already shutting down, log a warning and return;
otherwise set the flag (synchronously, before any await) and run the cleanup
sequence. The check and the set happen with no await between them, so two
concurrent calls still serialize through this atomic step. -/
def shutdown (s : ShutdownService) : ShutdownCallResult :=
  if s.isShuttingDown then
    { state := s, ranCleanup := false, events := [], warned := true }
  else
    { state := { s with isShuttingDown := true }
      ranCleanup := true
      events := executeCleanup s.cleanupFunctions
      warned := false }

/-- How many of `n` successive `shutdown()` calls start a cleanup sequence. -/
def shutdownRuns : Nat → ShutdownService → Nat
  | 0, _ => 0
  | n + 1, s =>
    (if (shutdown s).ranCleanup then 1 else 0) + shutdownRuns n (shutdown s).state

end Caper

namespace Caper

/-- C1: for error- and fatal-level entries, whatever their type and default
policy, the storage decision includes both the console and the database sink. -/
theorem errorClass_storage_includes_console_and_db
    (log : BaseLog) (d : LogStorage)
    (h : log.level = LogLevel.error ∨ log.level = LogLevel.fatal) :
    shouldWriteToConsole (determineStorage d log) = true ∧
    shouldWriteToDatabase (determineStorage d log) = true := by
  rcases h with h | h <;>
    simp [determineStorage, h, lookupRule, STORAGE_RULES, levelKey,
      shouldWriteToConsole, shouldWriteToDatabase] <;>
    decide

/-- Witness for C1: a concrete fatal entry is routed to console and database. -/
theorem errorClass_storage_includes_console_and_db_witness :
    shouldWriteToConsole (determineStorage LogStorage.console_only
      { id := "w1", level := .fatal, type := .http, message := "m",
        timestamp := 0, service := "jigu-server", environment := "development" }) = true ∧
    shouldWriteToDatabase (determineStorage LogStorage.console_only
      { id := "w1", level := .fatal, type := .http, message := "m",
        timestamp := 0, service := "jigu-server", environment := "development" }) = true :=
  errorClass_storage_includes_console_and_db _ _ (Or.inr rfl)

/-- C10: the storage decision equals the static table's level row for every
entry; the type lookup and the configured default never influence the result. -/
theorem determineStorage_eq_levelPolicy (d : LogStorage) (log : BaseLog) :
    determineStorage d log = levelPolicy log.level := by
  obtain ⟨i, lv, ty, msg, ts, sv, env, md, st⟩ := log
  cases lv <;> rfl

/-- After `flushQueue` the pending queue is always empty. -/
theorem flushQueue_logQueue (fails : Sink → BaseLog → Bool) (s : LogServiceState) :
    (flushQueue fails s).logQueue = [] := by
  cases hq : s.logQueue <;> simp [flushQueue, hq]

/-- `flushQueue` appends exactly the drained queue to the submission history. -/
theorem flushQueue_written_entries (fails : Sink → BaseLog → Bool) (s : LogServiceState) :
    (flushQueue fails s).written.map WriteRecord.entry
      = s.written.map WriteRecord.entry ++ s.logQueue := by
  cases hq : s.logQueue <;> simp [flushQueue, hq, List.map_map, Function.comp_def]

/-- `flushQueue` does not touch the batch timer or the configuration. -/
theorem flushQueue_preserves (fails : Sink → BaseLog → Bool) (s : LogServiceState) :
    (flushQueue fails s).batchTimerActive = s.batchTimerActive ∧
    (flushQueue fails s).config = s.config ∧
    (flushQueue fails s).autoFlushCount = s.autoFlushCount := by
  cases hq : s.logQueue <;> simp [flushQueue, hq]

/-- Conservation: across any step sequence, the submitted entries followed by
the pending queue equal the starting history and queue plus the entries
enqueued, in order. -/
theorem runOps_entries (fails : Sink → BaseLog → Bool) (ops : List QueueOp) :
    ∀ s : LogServiceState,
      ((runOps fails s ops).written.map WriteRecord.entry) ++ (runOps fails s ops).logQueue
        = ((s.written.map WriteRecord.entry) ++ s.logQueue) ++ enqueuedOf ops := by
  induction ops with
  | nil => intro s; simp [runOps, enqueuedOf]
  | cons op rest ih =>
    intro s
    cases op with
    | enq e =>
      have h := ih { s with logQueue := s.logQueue ++ [e] }
      simp only [runOps, applyOp, enqueuedOf]
      rw [h]
      simp
    | flushNow =>
      have h := ih (flushQueue fails s)
      simp only [runOps, applyOp, enqueuedOf]
      rw [h, flushQueue_written_entries, flushQueue_logQueue]
      simp

/-- The submission trace and queue evolution do not depend on which sink
writes fail. -/
theorem runOps_fails_indep (fails fails2 : Sink → BaseLog → Bool) (ops : List QueueOp) :
    ∀ s s2 : LogServiceState,
      s.logQueue = s2.logQueue →
      s.written.map WriteRecord.entry = s2.written.map WriteRecord.entry →
      (runOps fails s ops).logQueue = (runOps fails2 s2 ops).logQueue ∧
      (runOps fails s ops).written.map WriteRecord.entry
        = (runOps fails2 s2 ops).written.map WriteRecord.entry := by
  induction ops with
  | nil => intro s s2 hq hw; exact ⟨hq, hw⟩
  | cons op rest ih =>
    intro s s2 hq hw
    cases op with
    | enq e =>
      simp only [runOps, applyOp]
      exact ih _ _ (by simp [hq]) (by simpa using hw)
    | flushNow =>
      simp only [runOps, applyOp]
      refine ih _ _ ?_ ?_
      · rw [flushQueue_logQueue, flushQueue_logQueue]
      · rw [flushQueue_written_entries, flushQueue_written_entries, hq, hw]

/-- C2: from a fresh service, over any step sequence, the entries submitted to
sinks followed by the still-pending queue are exactly the enqueued entries in
order (none lost, none duplicated); `flushQueue` empties the queue in its
synchronous prefix and submits exactly the drained batch; and the submission
trace is the same whichever sink writes fail, so an individual sink-write
failure aborts nothing (and `flushQueue` returns a state, never an error). -/
theorem flush_exactly_once_and_fail_isolated (fails fails2 : Sink → BaseLog → Bool)
    (cfg : LogServiceConfig) (ops : List QueueOp) (s : LogServiceState) :
    ((runOps fails (initState cfg) ops).written.map WriteRecord.entry)
        ++ (runOps fails (initState cfg) ops).logQueue = enqueuedOf ops ∧
    (flushQueue fails s).logQueue = [] ∧
    (flushQueue fails s).written.map WriteRecord.entry
        = s.written.map WriteRecord.entry ++ s.logQueue ∧
    (runOps fails (initState cfg) ops).written.map WriteRecord.entry
        = (runOps fails2 (initState cfg) ops).written.map WriteRecord.entry := by
  refine ⟨?_, flushQueue_logQueue fails s, flushQueue_written_entries fails s, ?_⟩
  · have h := runOps_entries fails ops (initState cfg)
    simpa [initState] using h
  · exact (runOps_fails_indep fails fails2 ops _ _ rfl rfl).2

/-- C4: after `stop`, the batch timer is cancelled, the pending queue is
empty, and every entry that was buffered has been submitted to its sinks. -/
theorem stop_cancels_timer_and_drains (fails : Sink → BaseLog → Bool) (s : LogServiceState) :
    (stop fails s).batchTimerActive = false ∧
    (stop fails s).logQueue = [] ∧
    (stop fails s).written.map WriteRecord.entry
      = s.written.map WriteRecord.entry ++ s.logQueue := by
  refine ⟨?_, flushQueue_logQueue _ _, ?_⟩
  · have h := (flushQueue_preserves fails { s with batchTimerActive := false }).1
    simpa [stop] using h
  · have h := flushQueue_written_entries fails { s with batchTimerActive := false }
    simpa [stop] using h

/-- In async mode, a `log` call that brings the queue up to `batchSize`
flushes: the queue empties and the automatic-flush count increments. -/
theorem logCall_async_full (fails : Sink → BaseLog → Bool) (freshId : String) (now : Nat)
    (nodeEnv : Option String) (s : LogServiceState) (d : LogData)
    (ha : s.config.async = true)
    (hfull : s.config.batchSize ≤ s.logQueue.length + 1) :
    (logCall fails freshId now nodeEnv s d).logQueue = [] ∧
    (logCall fails freshId now nodeEnv s d).autoFlushCount = s.autoFlushCount + 1 ∧
    (logCall fails freshId now nodeEnv s d).config = s.config := by
  have hstep : logCall fails freshId now nodeEnv s d
      = flushQueue fails
          { s with logQueue := s.logQueue ++ [mkLog freshId now nodeEnv d],
                   autoFlushCount := s.autoFlushCount + 1 } := by
    simp [logCall, ha, hfull]
  rw [hstep]
  exact ⟨flushQueue_logQueue _ _,
    (flushQueue_preserves _ _).2.2,
    (flushQueue_preserves _ _).2.1⟩

/-- In async mode, a `log` call that leaves the queue below `batchSize` only
appends: no flush happens. -/
theorem logCall_async_below (fails : Sink → BaseLog → Bool) (freshId : String) (now : Nat)
    (nodeEnv : Option String) (s : LogServiceState) (d : LogData)
    (ha : s.config.async = true)
    (hlt : s.logQueue.length + 1 < s.config.batchSize) :
    (logCall fails freshId now nodeEnv s d).logQueue.length = s.logQueue.length + 1 ∧
    (logCall fails freshId now nodeEnv s d).autoFlushCount = s.autoFlushCount ∧
    (logCall fails freshId now nodeEnv s d).config = s.config := by
  have hnot : ¬ s.config.batchSize ≤ s.logQueue.length + 1 := by omega
  simp [logCall, ha, hnot]

/-- Automatic-flush counting: starting below the threshold in async mode, a
run of `log` calls performs `(pending + calls) / batchSize` automatic flushes
and leaves `(pending + calls) % batchSize` entries pending. -/
theorem runLogCalls_autoFlush (fails : Sink → BaseLog → Bool) (freshId : String) (now : Nat)
    (nodeEnv : Option String) (ds : List LogData) :
    ∀ s : LogServiceState,
      s.config.async = true → 0 < s.config.batchSize →
      s.logQueue.length < s.config.batchSize →
      (runLogCalls fails freshId now nodeEnv s ds).autoFlushCount
          = s.autoFlushCount + (s.logQueue.length + ds.length) / s.config.batchSize ∧
      (runLogCalls fails freshId now nodeEnv s ds).logQueue.length
          = (s.logQueue.length + ds.length) % s.config.batchSize := by
  induction ds with
  | nil =>
    intro s ha hb hlt
    simp [runLogCalls, Nat.div_eq_of_lt hlt, Nat.mod_eq_of_lt hlt]
  | cons d rest ih =>
    intro s ha hb hlt
    have hstep : runLogCalls fails freshId now nodeEnv s (d :: rest)
        = runLogCalls fails freshId now nodeEnv (logCall fails freshId now nodeEnv s d) rest := rfl
    by_cases hfull : s.config.batchSize ≤ s.logQueue.length + 1
    · obtain ⟨h1, h2, h3⟩ := logCall_async_full fails freshId now nodeEnv s d ha hfull
      obtain ⟨hc, hq⟩ := ih (logCall fails freshId now nodeEnv s d)
        (by rw [h3]; exact ha) (by rw [h3]; exact hb)
        (by rw [h3, h1]; simpa using hb)
      rw [h3, h1, h2] at hc
      rw [h3, h1] at hq
      rw [hstep]
      have harg : s.logQueue.length + (d :: rest).length
          = rest.length + s.config.batchSize := by
        simp only [List.length_cons]; omega
      constructor
      · rw [hc, harg, Nat.add_div_right _ hb]
        simp only [List.length_nil, Nat.zero_add]
        ring
      · rw [hq, harg, Nat.add_mod_right]
        simp
    · have hlt2 : s.logQueue.length + 1 < s.config.batchSize := by omega
      obtain ⟨h1, h2, h3⟩ := logCall_async_below fails freshId now nodeEnv s d ha hlt2
      obtain ⟨hc, hq⟩ := ih (logCall fails freshId now nodeEnv s d)
        (by rw [h3]; exact ha) (by rw [h3]; exact hb)
        (by rw [h3, h1]; exact hlt2)
      rw [h3, h1, h2] at hc
      rw [h3, h1] at hq
      rw [hstep]
      constructor
      · rw [hc]
        congr 2
        simp only [List.length_cons]
        omega
      · rw [hq]
        congr 1
        simp only [List.length_cons]
        omega

/-- C3: from a fresh async service with the default configuration
(`batchSize` 100), exactly 100 `log` calls trigger exactly one automatic
flush, and 99 calls trigger none. -/
theorem batchSize_flush_trigger (fails : Sink → BaseLog → Bool) (freshId : String) (now : Nat)
    (nodeEnv : Option String) (dsA dsB : List LogData)
    (hA : dsA.length = 100) (hB : dsB.length = 99) :
    (runLogCalls fails freshId now nodeEnv (initState defaultConfig) dsA).autoFlushCount = 1 ∧
    (runLogCalls fails freshId now nodeEnv (initState defaultConfig) dsB).autoFlushCount = 0 := by
  have h1 := (runLogCalls_autoFlush fails freshId now nodeEnv dsA
    (initState defaultConfig) rfl (by decide) (by decide)).1
  have h2 := (runLogCalls_autoFlush fails freshId now nodeEnv dsB
    (initState defaultConfig) rfl (by decide) (by decide)).1
  rw [hA] at h1
  rw [hB] at h2
  exact ⟨h1, h2⟩

/-- Witness for C3: 100 identical warn entries flush once; 99 do not flush. -/
theorem batchSize_flush_trigger_witness :
    (runLogCalls (fun _ _ => false) "u" 0 none (initState defaultConfig)
      (List.replicate 100 { message := "m", level := .warn, type := .app })).autoFlushCount = 1 ∧
    (runLogCalls (fun _ _ => false) "u" 0 none (initState defaultConfig)
      (List.replicate 99 { message := "m", level := .warn, type := .app })).autoFlushCount = 0 :=
  batchSize_flush_trigger (fun _ _ => false) "u" 0 none _ _
    (by simp) (by simp)

/-- Once the shutting-down flag is set, no number of further `shutdown()`
calls ever starts a cleanup sequence. -/
theorem shutdownRuns_zero_of_shuttingDown (n : Nat) :
    ∀ s : ShutdownService, s.isShuttingDown = true → shutdownRuns n s = 0 := by
  induction n with
  | zero => intro s h; rfl
  | succ n ih =>
    intro s h
    have h2 := ih s h
    simp [shutdownRuns, shutdown, h, h2]

/-- C5: a `shutdown()` call made while already shutting down is ignored with
only a warning (state unchanged, no cleanup started), and from a fresh
coordinator any number of successive calls — including ones issued while the
first is still in flight, since the check-and-set runs with no await between
them — starts the cleanup sequence exactly once. -/
theorem shutdown_cleanup_at_most_once (s : ShutdownService) (n : Nat) :
    (s.isShuttingDown = false → shutdownRuns (n + 1) s = 1) ∧
    (s.isShuttingDown = true →
      shutdown s = { state := s, ranCleanup := false, events := [], warned := true } ∧
      shutdownRuns n s = 0) := by
  constructor
  · intro h
    simp only [shutdownRuns, shutdown, h]
    rw [shutdownRuns_zero_of_shuttingDown n _ rfl]
    simp
  · intro h
    exact ⟨by simp [shutdown, h], shutdownRuns_zero_of_shuttingDown n s h⟩

/-- Witness for C5: from a fresh coordinator with one registered cleanup, two
successive `shutdown()` calls run the cleanup sequence exactly once. -/
theorem shutdown_cleanup_at_most_once_witness :
    shutdownRuns 2
      { cleanupFunctions := [(some "日志服务", Except.ok ())], isShuttingDown := false } = 1 :=
  (shutdown_cleanup_at_most_once
    { cleanupFunctions := [(some "日志服务", Except.ok ())], isShuttingDown := false } 1).1 rfl

/-- Every callback from position `i` on is started by `cleanupFrom`, and a
failing callback's error is caught and logged with its 1-based display index. -/
theorem cleanupFrom_invokes (fns : List (Option String × Except String Unit)) :
    ∀ (j i : Nat) (h : i < fns.length),
      CleanupEvent.started (displayName (fns.get ⟨i, h⟩).fst) ∈ cleanupFrom j fns ∧
      ∀ e, (fns.get ⟨i, h⟩).snd = Except.error e →
        CleanupEvent.indexFailed (j + i + 1) e ∈ cleanupFrom j fns := by
  induction fns with
  | nil => intro j i h; exact absurd h (by simp)
  | cons c rest ih =>
    intro j i h
    cases i with
    | zero =>
      constructor
      · apply List.mem_append_left
        cases hc : c.snd <;> simp [cleanupStep, runNamedCleanup, hc]
      · intro e he
        simp at he
        apply List.mem_append_left
        simp [cleanupStep, runNamedCleanup, he]
    | succ i2 =>
      have hj : i2 < rest.length := by simpa using h
      obtain ⟨m1, m2⟩ := ih (j + 1) i2 hj
      constructor
      · apply List.mem_append_right
        simpa using m1
      · intro e he
        apply List.mem_append_right
        have hm := m2 e (by simpa using he)
        have harith : j + 1 + i2 + 1 = j + (i2 + 1) + 1 := by omega
        rw [harith] at hm
        simpa using hm

/-- C6: `executeCleanup` invokes every registered callback; a thrown failure
is caught and logged (with the callback's 1-based index), is not re-thrown
(the method returns its event trace, never an error), and does not prevent
any other callback from being invoked and settling. -/
theorem executeCleanup_invokes_every_callback
    (fns : List (Option String × Except String Unit)) (i : Nat) (h : i < fns.length) :
    CleanupEvent.started (displayName (fns.get ⟨i, h⟩).fst) ∈ executeCleanup fns ∧
    ∀ e, (fns.get ⟨i, h⟩).snd = Except.error e →
      CleanupEvent.indexFailed (i + 1) e ∈ executeCleanup fns := by
  obtain ⟨m1, m2⟩ := cleanupFrom_invokes fns 0 i h
  refine ⟨m1, fun e he => ?_⟩
  simpa using m2 e he

/-- Witness for C6: with two registered callbacks where the first throws, the
second is still invoked. -/
theorem executeCleanup_invokes_every_callback_witness :
    CleanupEvent.started "日志服务" ∈ executeCleanup
      [(some "数据库", Except.error "boom"), (some "日志服务", Except.ok ())] := by
  have h := (executeCleanup_invokes_every_callback
    [(some "数据库", Except.error "boom"), (some "日志服务", Except.ok ())] 1 (by decide)).1
  simpa [displayName] using h

/-- Counterexample for C7: `log` spreads the caller's partial entry after the
generated defaults, so a supplied `id` overrides the freshly generated one. -/
theorem log_overridden_id_counterexample :
    (mkLog "generated-uuid" 5 none
      { message := "m", level := .info, type := .app, id := some "caller-id" }).id
      ≠ "generated-uuid" := by decide

/-- C7 amended: the generated `id`, `timestamp`, `service` and `environment`
are defaults that a field supplied in the partial entry overrides; whenever
the partial entry omits them, the entry carries the fresh id, the current
time, "jigu-server" and the NODE_ENV-or-development environment, and that
completed entry is what gets enqueued (async mode, below the batch threshold)
or written synchronously (sync mode). -/
theorem log_fills_missing_fields (fails : Sink → BaseLog → Bool) (freshId : String)
    (now : Nat) (nodeEnv : Option String) (s : LogServiceState) (d : LogData)
    (hid : d.id = none) (hts : d.timestamp = none)
    (hsv : d.service = none) (henv : d.environment = none) :
    (mkLog freshId now nodeEnv d).id = freshId ∧
    (mkLog freshId now nodeEnv d).timestamp = now ∧
    (mkLog freshId now nodeEnv d).service = "jigu-server" ∧
    (mkLog freshId now nodeEnv d).environment = envOrDevelopment nodeEnv ∧
    (s.config.async = true → s.logQueue.length + 1 < s.config.batchSize →
      (logCall fails freshId now nodeEnv s d).logQueue
        = s.logQueue ++ [mkLog freshId now nodeEnv d]) ∧
    (s.config.async = false →
      (logCall fails freshId now nodeEnv s d).written
        = s.written ++
            [{ entry := mkLog freshId now nodeEnv d,
               storage := determineStorage s.config.defaultStorage (mkLog freshId now nodeEnv d),
               outcomes := writeLog fails (mkLog freshId now nodeEnv d)
                 (determineStorage s.config.defaultStorage (mkLog freshId now nodeEnv d)) }]) := by
  refine ⟨by simp [mkLog, hid], by simp [mkLog, hts], by simp [mkLog, hsv],
    by simp [mkLog, henv], ?_, ?_⟩
  · intro ha hlt
    have hnot : ¬ s.config.batchSize ≤ s.logQueue.length + 1 := by omega
    simp [logCall, ha, hnot]
  · intro ha
    simp [logCall, ha]

/-- Witness for C7 amended: a warn entry with no optional fields, logged on a
fresh async service, is enqueued with the generated id, timestamp, service
and environment. -/
theorem log_fills_missing_fields_witness :
    (mkLog "u7" 42 none { message := "m", level := .warn, type := .app }).id = "u7" ∧
    (mkLog "u7" 42 none { message := "m", level := .warn, type := .app }).timestamp = 42 ∧
    (mkLog "u7" 42 none { message := "m", level := .warn, type := .app }).service
      = "jigu-server" ∧
    (mkLog "u7" 42 none { message := "m", level := .warn, type := .app }).environment
      = envOrDevelopment none ∧
    (True → (initState defaultConfig).logQueue.length + 1 < (initState defaultConfig).config.batchSize →
      True) ∧
    (logCall (fun _ _ => false) "u7" 42 none (initState defaultConfig)
        { message := "m", level := .warn, type := .app }).logQueue
      = [mkLog "u7" 42 none { message := "m", level := .warn, type := .app }] := by
  have h := log_fills_missing_fields (fun _ _ => false) "u7" 42 none
    (initState defaultConfig) { message := "m", level := .warn, type := .app }
    rfl rfl rfl rfl
  refine ⟨h.1, h.2.1, h.2.2.1, h.2.2.2.1, fun _ _ => trivial, ?_⟩
  have h5 := h.2.2.2.2.1 rfl (by decide)
  simpa [initState] using h5

/-- Looking a key up in a concatenation first consults the later bindings. -/
theorem metaLookup_append (xs ys : List (String × String)) (k : String) :
    metaLookup (xs ++ ys) k
      = match metaLookup ys k with
        | some v => some v
        | none => metaLookup xs k := by
  induction xs with
  | nil => simp [metaLookup]; cases metaLookup ys k <;> rfl
  | cons a rest ih =>
    rw [List.cons_append]
    cases a with
    | mk ak av =>
      simp only [metaLookup, ih]
      cases metaLookup ys k <;> cases metaLookup rest k <;> simp

/-- The spread `{ ...metadata, ...{ errorName, errorMessage } }` binds
`errorName` to the error's name, whatever the caller metadata held. -/
theorem metaLookup_spread_errorName (md : Option (List (String × String))) (err : JsError) :
    metaLookup (spreadErrorMeta md (some err)) "errorName" = some err.name := by
  rw [spreadErrorMeta, metaLookup_append]
  simp [metaLookup]

/-- The spread binds `errorMessage` to the error's message likewise. -/
theorem metaLookup_spread_errorMessage (md : Option (List (String × String))) (err : JsError) :
    metaLookup (spreadErrorMeta md (some err)) "errorMessage" = some err.message := by
  rw [spreadErrorMeta, metaLookup_append]
  simp [metaLookup]

/-- Counterexample for C8: with an Error whose stack is "trace-line", the
constructed entry's metadata holds no binding whose value is the stack — the
stack goes to the entry's top-level `stack` field instead. -/
theorem error_stack_not_in_metadata :
    (((errorLogData "m"
        (some { name := "TypeError", message := "boom", stack := some "trace-line" })
        none LogType.app).metadata.getD []).all
      (fun kv => !(kv.snd == "trace-line"))) = true ∧
    (errorLogData "m"
        (some { name := "TypeError", message := "boom", stack := some "trace-line" })
        none LogType.app).stack = some "trace-line" := by
  constructor <;> decide

/-- C8 amended: for `error`/`fatal` with an Error supplied, the entry's
metadata contains the error's name under `errorName` and its message under
`errorMessage` (overriding any caller-supplied binding), while the error's
stack is captured in the entry's top-level `stack` field. -/
theorem error_fatal_capture (message : String) (err : JsError)
    (md : Option (List (String × String))) (ty : LogType) :
    (errorLogData message (some err) md ty).metadata
        = some (spreadErrorMeta md (some err)) ∧
    (fatalLogData message (some err) md ty).metadata
        = some (spreadErrorMeta md (some err)) ∧
    metaLookup (spreadErrorMeta md (some err)) "errorName" = some err.name ∧
    metaLookup (spreadErrorMeta md (some err)) "errorMessage" = some err.message ∧
    (errorLogData message (some err) md ty).stack = err.stack ∧
    (fatalLogData message (some err) md ty).stack = err.stack ∧
    (errorLogData message (some err) md ty).level = LogLevel.error ∧
    (fatalLogData message (some err) md ty).level = LogLevel.fatal := by
  refine ⟨rfl, rfl, metaLookup_spread_errorName md err,
    metaLookup_spread_errorMessage md err, ?_, ?_, rfl, rfl⟩ <;>
    simp [errorLogData, fatalLogData, Option.bind]

/-- C9: `getStats` computes the error rate as
`(error+fatal count / total) * 100` whenever the total is positive, and the
zero-total branch returns rate 0 without performing the division. -/
theorem getStats_errorRate_guard (logs : List BaseLog) :
    ((getStats logs).total = 0 → (getStats logs).errorRate = 0) ∧
    (0 < (getStats logs).total →
      (getStats logs).errorRate
        = ((statsErrorCount logs : ℚ) / ((getStats logs).total : ℚ)) * 100) ∧
    (getStats logs).total = logs.length := by
  refine ⟨?_, ?_, rfl⟩
  · intro h
    have h0 : logs.length = 0 := h
    simp [getStats, h0]
  · intro h
    have h0 : 0 < logs.length := h
    simp [getStats, h0]

/-- Witness for C9: on an empty set of entries, total is 0 and the error rate
is 0, with no division performed. -/
theorem getStats_errorRate_guard_witness :
    (getStats []).errorRate = 0 ∧ (getStats []).total = 0 :=
  ⟨(getStats_errorRate_guard []).1 rfl, rfl⟩

end Caper
